import Mathlib

/-!
Verification of `multi_quantization` (file `multi_kmeans.py`, class `MultiKmeansQuantizer`).

The quantizer owns `centers[num_codebooks][codebook_size][dim]` and a scalar
`frame_entropy_scale`.  We embed the tensor programs shallowly: a tensor is a function
from natural-number indices to `ℚ` (for the exact, sampling-free operations
`decode`, `refine_indexes`, `get_product_quantizer`) or to `ℝ` (for the stochastic
refinement pipeline, which uses `exp`/`log`/`softmax`).  Batched tensors take the row
index `b` first.  Sums along a tensor dimension of size `n` become `∑ i ∈ Finset.range n`.
Sizes (`B`, `num_codebooks C`, `codebook_size K`, `dim D`) are explicit parameters.
-/

namespace MultiKmeans

/-! ## Exact (ℚ-valued) model: decode, deterministic refinement, product quantizer -/

/-- Embedding of `MultiKmeansQuantizer.decode` (src/multi_kmeans.py lines 174-197):
gather each codebook's selected center and sum over codebooks;
component `d` of the reconstruction of the code tuple `code`. -/
def decode (C : ℕ) (centers : ℕ → ℕ → ℕ → ℚ) (code : ℕ → ℕ) (d : ℕ) : ℚ :=
  ∑ c ∈ Finset.range C, centers c (code c) d

/-- `cur_centers` of `refine_indexes` (line 223): the currently selected center of
codebook `c` for batch row `b`, component `d`. -/
def curCenters (centers : ℕ → ℕ → ℕ → ℚ) (indexes : ℕ → ℕ → ℕ) (b c d : ℕ) : ℚ :=
  centers c (indexes b c) d

/-- `x_err` of `refine_indexes` (line 225): current reconstruction minus target,
`cur_centers.sum(dim=1) - x`, at batch row `b`, component `d`. -/
def xErr (C : ℕ) (centers : ℕ → ℕ → ℕ → ℚ) (x : ℕ → ℕ → ℚ) (indexes : ℕ → ℕ → ℕ)
    (b d : ℕ) : ℚ :=
  (∑ c ∈ Finset.range C, curCenters centers indexes b c d) - x b d

/-- `modified_errs` of `refine_indexes` (line 231): the hypothetical residual
`x_err - cur_centers + all_centers` if codebook `c`'s entry were swapped to candidate `k`. -/
def modifiedErrs (C : ℕ) (centers : ℕ → ℕ → ℕ → ℚ) (x : ℕ → ℕ → ℚ) (indexes : ℕ → ℕ → ℕ)
    (b c k d : ℕ) : ℚ :=
  xErr C centers x indexes b d - curCenters centers indexes b c d + centers c k d

/-- `modified_neg_sumsq_errs` of `refine_indexes` (line 232):
`-((modified_errs ** 2).sum(dim=-1))`. -/
def modifiedNegSumsqErrs (C D : ℕ) (centers : ℕ → ℕ → ℕ → ℚ) (x : ℕ → ℕ → ℚ)
    (indexes : ℕ → ℕ → ℕ) (b c k : ℕ) : ℚ :=
  -∑ d ∈ Finset.range D, (modifiedErrs C centers x indexes b c k d) ^ 2

/-- `torch.argmax` along a dimension of size `K`: the first index in `[0, K)` attaining
the maximal value (torch documents that the index of the first maximal value is returned).
Returns `0` for `K = 0` (torch would raise; the quantizer always has `codebook_size ≥ 1`). -/
def argmaxIdx (f : ℕ → ℚ) (K : ℕ) : ℕ :=
  (List.argmax f (List.range K)).getD 0

/-- Embedding of `MultiKmeansQuantizer.refine_indexes` (src/multi_kmeans.py lines 199-235):
for every batch row and codebook, pick the candidate maximizing `modified_neg_sumsq_errs`. -/
def refine_indexes (C D K : ℕ) (centers : ℕ → ℕ → ℕ → ℚ) (x : ℕ → ℕ → ℚ)
    (indexes : ℕ → ℕ → ℕ) : ℕ → ℕ → ℕ :=
  fun b c => argmaxIdx (fun k => modifiedNegSumsqErrs C D centers x indexes b c k) K

/-- Squared reconstruction error of the code tuple `indexes b ·` against row `b` of `x`
(the quantity `((decode(indexes) - x) ** 2).sum()` restricted to one batch row,
as in src/multi_kmeans.py line 139). -/
def sqErrRow (C D : ℕ) (centers : ℕ → ℕ → ℕ → ℚ) (x : ℕ → ℕ → ℚ) (indexes : ℕ → ℕ → ℕ)
    (b : ℕ) : ℚ :=
  ∑ d ∈ Finset.range D, (xErr C centers x indexes b d) ^ 2

/-- The code tuple `indexes` with the single entry at batch row `b`, codebook `c`
replaced by `k`; used to state what one codebook's swap does in isolation. -/
def updateAt (indexes : ℕ → ℕ → ℕ) (b c k : ℕ) : ℕ → ℕ → ℕ :=
  fun b' c' => if b' = b ∧ c' = c then k else indexes b' c'

/-- `new_codebook_size` of `get_product_quantizer` (src/multi_kmeans.py line 46). -/
def newCodebookSize (K : ℕ) : ℕ := K ^ 2

/-- `new_num_codebooks` of `get_product_quantizer` (src/multi_kmeans.py line 47):
Python floor division `num_codebooks // 2`, with no evenness assertion. -/
def newNumCodebooks (C : ℕ) : ℕ := C / 2

/-- Embedding of the center bank built by `MultiKmeansQuantizer.get_product_quantizer`
(src/multi_kmeans.py lines 53-60).  The loops assign, for every `k_in1, k_in2 < K`,
`ans.centers[c_out][k_in1 * K + k_in2] = centers[2*c_out][k_in1] + centers[2*c_out+1][k_in2]`;
since `k' ↦ (k' / K, k' % K)` inverts `(k1, k2) ↦ k1 * K + k2` on `[0, K^2)`, the bank
assembled by the loops is this function of the output index `k'`. -/
def productCenters (K : ℕ) (centers : ℕ → ℕ → ℕ → ℚ) : ℕ → ℕ → ℕ → ℚ :=
  fun c' k' d => centers (2 * c') (k' / K) d + centers (2 * c' + 1) (k' % K) d

/-- The code tuple for the merged quantizer that pairs the entries of `code`:
`c' ↦ code (2 * c') * K + code (2 * c' + 1)`. -/
def pairedCode (K : ℕ) (code : ℕ → ℕ) : ℕ → ℕ :=
  fun c' => code (2 * c') * K + code (2 * c' + 1)

/-- Python-level errors surfaced by the embedded methods. -/
inductive PyError where
  | attributeError : PyError
deriving DecidableEq

/-- Embedding of `MultiKmeansQuantizer.compute_ref_loss` (src/multi_kmeans.py lines 64-106).
Its first statement (line 78) is `logits = self._logits(x)`; neither `_logits` nor
`_to_output` (used at line 90) is defined on `MultiKmeansQuantizer` or inherited from
`torch.nn.Module`, so the attribute lookup raises `AttributeError` on every call, before
any of the arithmetic of lines 82-106 runs.  The embedding therefore returns that error. -/
def compute_ref_loss (C K D : ℕ) (centers : ℕ → ℕ → ℕ → ℚ) (x : ℕ → ℕ → ℚ) :
    Except PyError ℚ :=
  Except.error PyError.attributeError

/-- Contract of `torch.randint(high, size)` (library function, modelled by its documented
contract): each entry is drawn independently and uniformly from `[0, high)`; this is the
probability that one entry equals `v`. -/
def randintProb (high : ℕ) (v : ℕ) : ℚ :=
  if v < high then ((high : ℚ))⁻¹ else 0

/-- The distribution of one component of the initial code tuple drawn by
`MultiKmeansQuantizer.forward` (src/multi_kmeans.py line 133):
`torch.randint(self.codebook_size - 1, (B, self.num_codebooks))`. -/
def forwardInitProb (codebook_size : ℕ) (v : ℕ) : ℚ :=
  randintProb (codebook_size - 1) v

noncomputable section

/-! ## Real-valued model of `refine_indexes_stochastic` (src/multi_kmeans.py lines 238-326)

The stochastic refinement uses `exp`/`log`/`softmax`, so its embedding lives over `ℝ`.
The learned scalar `frame_entropy_scale` is `s`.  `Tensor.detach` leaves the numerical
value unchanged (it only cuts the autograd edge), so its value semantics is the identity;
the gradient semantics is modelled separately by the dual-number pipeline below. -/

/-- Value semantics of `Tensor.detach`: the identity on values. -/
def detach (r : ℝ) : ℝ := r

/-- `cur_centers` of `refine_indexes_stochastic` (line 278). -/
def curCentersR (centers : ℕ → ℕ → ℕ → ℝ) (indexes : ℕ → ℕ → ℕ) (b c d : ℕ) : ℝ :=
  centers c (indexes b c) d

/-- `x_err` of `refine_indexes_stochastic` (line 281). -/
def xErrR (C : ℕ) (centers : ℕ → ℕ → ℕ → ℝ) (x : ℕ → ℕ → ℝ) (indexes : ℕ → ℕ → ℕ)
    (b d : ℕ) : ℝ :=
  (∑ c ∈ Finset.range C, curCentersR centers indexes b c d) - x b d

/-- `modified_errs` of `refine_indexes_stochastic` (line 291). -/
def modifiedErrsR (C : ℕ) (centers : ℕ → ℕ → ℕ → ℝ) (x : ℕ → ℕ → ℝ)
    (indexes : ℕ → ℕ → ℕ) (b c k d : ℕ) : ℝ :=
  xErrR C centers x indexes b d - curCentersR centers indexes b c d + centers c k d

/-- `modified_sumsq_errs` of `refine_indexes_stochastic` (line 293):
`(modified_errs ** 2).sum(dim=-1)`. -/
def modifiedSumsqErrsR (C D : ℕ) (centers : ℕ → ℕ → ℕ → ℝ) (x : ℕ → ℕ → ℝ)
    (indexes : ℕ → ℕ → ℕ) (b c k : ℕ) : ℝ :=
  ∑ d ∈ Finset.range D, (modifiedErrsR C centers x indexes b c k d) ^ 2

/-- `scaled_neg_sumsq_errs_detached` (line 298):
`modified_sumsq_errs.detach() * -(10.0 * self.frame_entropy_scale).exp()`. -/
def scaledNegSumsqErrsDetached (C D : ℕ) (centers : ℕ → ℕ → ℕ → ℝ) (s : ℝ)
    (x : ℕ → ℕ → ℝ) (indexes : ℕ → ℕ → ℕ) (b c k : ℕ) : ℝ :=
  detach (modifiedSumsqErrsR C D centers x indexes b c k) * (-Real.exp (10 * s))

/-- `codebook_logprobs_detached` (line 301): `log_softmax` along the candidate dimension,
`l k - log (sum j, exp (l j))`. -/
def codebookLogprobsDetached (C K D : ℕ) (centers : ℕ → ℕ → ℕ → ℝ) (s : ℝ)
    (x : ℕ → ℕ → ℝ) (indexes : ℕ → ℕ → ℕ) (b c k : ℕ) : ℝ :=
  scaledNegSumsqErrsDetached C D centers s x indexes b c k
    - Real.log (∑ j ∈ Finset.range K,
        Real.exp (scaledNegSumsqErrsDetached C D centers s x indexes b c j))

/-- `codebook_probs_detached` (line 304): `softmax` along the candidate dimension. -/
def codebookProbsDetached (C K D : ℕ) (centers : ℕ → ℕ → ℕ → ℝ) (s : ℝ)
    (x : ℕ → ℕ → ℝ) (indexes : ℕ → ℕ → ℕ) (b c k : ℕ) : ℝ :=
  Real.exp (scaledNegSumsqErrsDetached C D centers s x indexes b c k)
    / ∑ j ∈ Finset.range K,
        Real.exp (scaledNegSumsqErrsDetached C D centers s x indexes b c j)

/-- The per-candidate probability of the categorical distribution
`torch.distributions.categorical.Categorical(logits=codebook_logprobs_detached)` from
which line 303 samples the new indexes: by the torch contract, the softmax of the
logits. -/
def samplingProbs (C K D : ℕ) (centers : ℕ → ℕ → ℕ → ℝ) (s : ℝ)
    (x : ℕ → ℕ → ℝ) (indexes : ℕ → ℕ → ℕ) (b c k : ℕ) : ℝ :=
  Real.exp (codebookLogprobsDetached C K D centers s x indexes b c k)
    / ∑ j ∈ Finset.range K,
        Real.exp (codebookLogprobsDetached C K D centers s x indexes b c j)

/-- `avg_frame_entropy` (line 305):
`-(codebook_logprobs_detached * codebook_probs_detached).sum(dim=-1).mean()`,
the mean running over the `B * num_codebooks` entries left after the inner sum. -/
def avgFrameEntropy (B C K D : ℕ) (centers : ℕ → ℕ → ℕ → ℝ) (s : ℝ)
    (x : ℕ → ℕ → ℝ) (indexes : ℕ → ℕ → ℕ) : ℝ :=
  -((∑ b ∈ Finset.range B, ∑ c ∈ Finset.range C, ∑ k ∈ Finset.range K,
      codebookLogprobsDetached C K D centers s x indexes b c k
        * codebookProbsDetached C K D centers s x indexes b c k) / ((B : ℝ) * (C : ℝ)))

/-- `scaled_neg_sumsq_errs` (line 311):
`modified_sumsq_errs * -(10.0 * self.frame_entropy_scale.detach()).exp()`. -/
def scaledNegSumsqErrs (C D : ℕ) (centers : ℕ → ℕ → ℕ → ℝ) (s : ℝ)
    (x : ℕ → ℕ → ℝ) (indexes : ℕ → ℕ → ℕ) (b c k : ℕ) : ℝ :=
  modifiedSumsqErrsR C D centers x indexes b c k * (-Real.exp (10 * detach s))

/-- `codebook_probs` (line 312): `softmax` of `scaled_neg_sumsq_errs`. -/
def codebookProbs (C K D : ℕ) (centers : ℕ → ℕ → ℕ → ℝ) (s : ℝ)
    (x : ℕ → ℕ → ℝ) (indexes : ℕ → ℕ → ℕ) (b c k : ℕ) : ℝ :=
  Real.exp (scaledNegSumsqErrs C D centers s x indexes b c k)
    / ∑ j ∈ Finset.range K,
        Real.exp (scaledNegSumsqErrs C D centers s x indexes b c j)

/-- The distribution the claim describes: per codebook and frame, the softmax over
candidates of `-(squared candidate error) * exp (10 * frame_entropy_scale)`. -/
def softmaxSpecC10 (C K D : ℕ) (centers : ℕ → ℕ → ℕ → ℝ) (s : ℝ)
    (x : ℕ → ℕ → ℝ) (indexes : ℕ → ℕ → ℕ) (b c k : ℕ) : ℝ :=
  Real.exp (-(modifiedSumsqErrsR C D centers x indexes b c k) * Real.exp (10 * s))
    / ∑ j ∈ Finset.range K,
        Real.exp (-(modifiedSumsqErrsR C D centers x indexes b c j) * Real.exp (10 * s))

/-- `expected_sumsq_term1` (line 314): `(codebook_probs * modified_sumsq_errs).sum()`. -/
def expectedSumsqTerm1 (B C K D : ℕ) (centers : ℕ → ℕ → ℕ → ℝ) (s : ℝ)
    (x : ℕ → ℕ → ℝ) (indexes : ℕ → ℕ → ℕ) : ℝ :=
  ∑ b ∈ Finset.range B, ∑ c ∈ Finset.range C, ∑ k ∈ Finset.range K,
    codebookProbs C K D centers s x indexes b c k
      * modifiedSumsqErrsR C D centers x indexes b c k

/-- `expected_sumsq` (line 317): `expected_sumsq_term1 / self.num_codebooks`. -/
def expectedSumsq (B C K D : ℕ) (centers : ℕ → ℕ → ℕ → ℝ) (s : ℝ)
    (x : ℕ → ℕ → ℝ) (indexes : ℕ → ℕ → ℕ) : ℝ :=
  expectedSumsqTerm1 B C K D centers s x indexes / (C : ℝ)

/-- `avg_probs` (line 321): `codebook_probs.mean(dim=0)`. -/
def avgProbs (B C K D : ℕ) (centers : ℕ → ℕ → ℕ → ℝ) (s : ℝ)
    (x : ℕ → ℕ → ℝ) (indexes : ℕ → ℕ → ℕ) (c k : ℕ) : ℝ :=
  (∑ b ∈ Finset.range B, codebookProbs C K D centers s x indexes b c k) / (B : ℝ)

/-- `class_entropy` (line 322):
`-(avg_probs * (avg_probs + 1.0e-20).log()).sum(dim=1).mean()`,
the mean running over the `num_codebooks` entries left after the inner sum. -/
def classEntropy (B C K D : ℕ) (centers : ℕ → ℕ → ℕ → ℝ) (s : ℝ)
    (x : ℕ → ℕ → ℝ) (indexes : ℕ → ℕ → ℕ) : ℝ :=
  -((∑ c ∈ Finset.range C, ∑ k ∈ Finset.range K,
      avgProbs B C K D centers s x indexes c k
        * Real.log (avgProbs B C K D centers s x indexes c k + 1e-20)) / (C : ℝ))

/-- `entropy_loss` (line 324): `math.log(self.codebook_size) - class_entropy`. -/
def entropyLoss (B C K D : ℕ) (centers : ℕ → ℕ → ℕ → ℝ) (s : ℝ)
    (x : ℕ → ℕ → ℝ) (indexes : ℕ → ℕ → ℕ) : ℝ :=
  Real.log (K : ℝ) - classEntropy B C K D centers s x indexes

/-- `(x ** 2).sum()`, the total squared energy of the input batch. -/
def xEnergy (B D : ℕ) (x : ℕ → ℕ → ℝ) : ℝ :=
  ∑ b ∈ Finset.range B, ∑ d ∈ Finset.range D, (x b d) ^ 2

/-- `reconstruction_loss` (line 325): `expected_sumsq / (x ** 2).sum()`.
The denominator is the raw energy: no `1e-20` appears on this line of the source. -/
def reconstructionLoss (B C K D : ℕ) (centers : ℕ → ℕ → ℕ → ℝ) (s : ℝ)
    (x : ℕ → ℕ → ℝ) (indexes : ℕ → ℕ → ℕ) : ℝ :=
  expectedSumsq B C K D centers s x indexes / xEnergy B D x

/-- Following the claim's words: the reconstruction loss with the epsilon `1e-20`
added to the energy denominator (as `compute_ref_loss` line 102 does for its own,
unreachable, division). -/
def reconstructionLossGuarded (B C K D : ℕ) (centers : ℕ → ℕ → ℕ → ℝ) (s : ℝ)
    (x : ℕ → ℕ → ℝ) (indexes : ℕ → ℕ → ℕ) : ℝ :=
  expectedSumsq B C K D centers s x indexes / (xEnergy B D x + 1e-20)

/-! ## Dual-number model of the gradient flow in `refine_indexes_stochastic`

Autograd is modelled by forward-mode differentiation: every scalar carries a value
and its directional derivative `dv` along one chosen direction in parameter space.
`Tensor.detach` keeps the value and zeroes the derivative — here it is not the
identity, so the detached and attached variants of the pipeline are genuinely
different programs that happen to agree on values. -/

/-- A forward-mode scalar: value and directional derivative. -/
structure Dual where
  val : ℝ
  dv : ℝ

/-- A constant (input data or a Python float): zero derivative. -/
def Dual.c (r : ℝ) : Dual := ⟨r, 0⟩

/-- Dual addition. -/
def Dual.add (a b : Dual) : Dual := ⟨a.val + b.val, a.dv + b.dv⟩

/-- Dual subtraction. -/
def Dual.sub (a b : Dual) : Dual := ⟨a.val - b.val, a.dv - b.dv⟩

/-- Dual multiplication (product rule). -/
def Dual.mul (a b : Dual) : Dual := ⟨a.val * b.val, a.dv * b.val + a.val * b.dv⟩

/-- Dual negation. -/
def Dual.neg (a : Dual) : Dual := ⟨-a.val, -a.dv⟩

/-- Dual exponential. -/
def Dual.exp (a : Dual) : Dual := ⟨Real.exp a.val, a.dv * Real.exp a.val⟩

/-- Dual logarithm. -/
def Dual.log (a : Dual) : Dual := ⟨Real.log a.val, a.dv / a.val⟩

/-- Dual division (quotient rule). -/
def Dual.div (a b : Dual) : Dual := ⟨a.val / b.val, (a.dv * b.val - a.val * b.dv) / b.val ^ 2⟩

/-- `Tensor.detach`: keep the value, cut the gradient. -/
def Dual.detach (a : Dual) : Dual := ⟨a.val, 0⟩

/-- Sum of dual scalars over `[0, n)` (componentwise, as autograd sums both values
and derivatives). -/
def dSum (n : ℕ) (f : ℕ → Dual) : Dual :=
  ⟨∑ i ∈ Finset.range n, (f i).val, ∑ i ∈ Finset.range n, (f i).dv⟩

/-- `cur_centers` (line 278), dual. -/
def dCurCenters (centers : ℕ → ℕ → ℕ → Dual) (indexes : ℕ → ℕ → ℕ) (b c d : ℕ) : Dual :=
  centers c (indexes b c) d

/-- `x_err` (line 281), dual; the input `x` is data, hence constant. -/
def dXErr (C : ℕ) (centers : ℕ → ℕ → ℕ → Dual) (x : ℕ → ℕ → ℝ) (indexes : ℕ → ℕ → ℕ)
    (b d : ℕ) : Dual :=
  (dSum C fun c => dCurCenters centers indexes b c d).sub (Dual.c (x b d))

/-- `modified_errs` (line 291), dual. -/
def dModifiedErrs (C : ℕ) (centers : ℕ → ℕ → ℕ → Dual) (x : ℕ → ℕ → ℝ)
    (indexes : ℕ → ℕ → ℕ) (b c k d : ℕ) : Dual :=
  ((dXErr C centers x indexes b d).sub (dCurCenters centers indexes b c d)).add
    (centers c k d)

/-- `modified_sumsq_errs` (line 293), dual. -/
def dModifiedSumsqErrs (C D : ℕ) (centers : ℕ → ℕ → ℕ → Dual) (x : ℕ → ℕ → ℝ)
    (indexes : ℕ → ℕ → ℕ) (b c k : ℕ) : Dual :=
  dSum D fun d => (dModifiedErrs C centers x indexes b c k d).mul
    (dModifiedErrs C centers x indexes b c k d)

/-- `scaled_neg_sumsq_errs_detached` (line 298), dual: the cost is detached, the
temperature term `-(10.0 * frame_entropy_scale).exp()` is attached. -/
def dScaledNegSumsqErrsDetached (C D : ℕ) (centers : ℕ → ℕ → ℕ → Dual) (s : Dual)
    (x : ℕ → ℕ → ℝ) (indexes : ℕ → ℕ → ℕ) (b c k : ℕ) : Dual :=
  (Dual.detach (dModifiedSumsqErrs C D centers x indexes b c k)).mul
    (Dual.neg (((Dual.c 10).mul s).exp))

/-- `codebook_logprobs_detached` (line 301), dual. -/
def dCodebookLogprobsDetached (C K D : ℕ) (centers : ℕ → ℕ → ℕ → Dual) (s : Dual)
    (x : ℕ → ℕ → ℝ) (indexes : ℕ → ℕ → ℕ) (b c k : ℕ) : Dual :=
  (dScaledNegSumsqErrsDetached C D centers s x indexes b c k).sub
    ((dSum K fun j => (dScaledNegSumsqErrsDetached C D centers s x indexes b c j).exp).log)

/-- `codebook_probs_detached` (line 304), dual. -/
def dCodebookProbsDetached (C K D : ℕ) (centers : ℕ → ℕ → ℕ → Dual) (s : Dual)
    (x : ℕ → ℕ → ℝ) (indexes : ℕ → ℕ → ℕ) (b c k : ℕ) : Dual :=
  ((dScaledNegSumsqErrsDetached C D centers s x indexes b c k).exp).div
    (dSum K fun j => (dScaledNegSumsqErrsDetached C D centers s x indexes b c j).exp)

/-- `avg_frame_entropy` (line 305), dual. -/
def dAvgFrameEntropy (B C K D : ℕ) (centers : ℕ → ℕ → ℕ → Dual) (s : Dual)
    (x : ℕ → ℕ → ℝ) (indexes : ℕ → ℕ → ℕ) : Dual :=
  ((dSum B fun b => dSum C fun c => dSum K fun k =>
      (dCodebookLogprobsDetached C K D centers s x indexes b c k).mul
        (dCodebookProbsDetached C K D centers s x indexes b c k)).div
    (Dual.c ((B : ℝ) * (C : ℝ)))).neg

/-- `scaled_neg_sumsq_errs` (line 311), dual: the cost is attached, the temperature
is detached. -/
def dScaledNegSumsqErrs (C D : ℕ) (centers : ℕ → ℕ → ℕ → Dual) (s : Dual)
    (x : ℕ → ℕ → ℝ) (indexes : ℕ → ℕ → ℕ) (b c k : ℕ) : Dual :=
  (dModifiedSumsqErrs C D centers x indexes b c k).mul
    (Dual.neg (((Dual.c 10).mul (Dual.detach s)).exp))

/-- `codebook_probs` (line 312), dual. -/
def dCodebookProbs (C K D : ℕ) (centers : ℕ → ℕ → ℕ → Dual) (s : Dual)
    (x : ℕ → ℕ → ℝ) (indexes : ℕ → ℕ → ℕ) (b c k : ℕ) : Dual :=
  ((dScaledNegSumsqErrs C D centers s x indexes b c k).exp).div
    (dSum K fun j => (dScaledNegSumsqErrs C D centers s x indexes b c j).exp)

/-- `expected_sumsq` (lines 314 and 317), dual. -/
def dExpectedSumsq (B C K D : ℕ) (centers : ℕ → ℕ → ℕ → Dual) (s : Dual)
    (x : ℕ → ℕ → ℝ) (indexes : ℕ → ℕ → ℕ) : Dual :=
  (dSum B fun b => dSum C fun c => dSum K fun k =>
      (dCodebookProbs C K D centers s x indexes b c k).mul
        (dModifiedSumsqErrs C D centers x indexes b c k)).div
    (Dual.c (C : ℝ))

/-- `avg_probs` (line 321), dual. -/
def dAvgProbs (B C K D : ℕ) (centers : ℕ → ℕ → ℕ → Dual) (s : Dual)
    (x : ℕ → ℕ → ℝ) (indexes : ℕ → ℕ → ℕ) (c k : ℕ) : Dual :=
  (dSum B fun b => dCodebookProbs C K D centers s x indexes b c k).div (Dual.c (B : ℝ))

/-- `class_entropy` (line 322), dual. -/
def dClassEntropy (B C K D : ℕ) (centers : ℕ → ℕ → ℕ → Dual) (s : Dual)
    (x : ℕ → ℕ → ℝ) (indexes : ℕ → ℕ → ℕ) : Dual :=
  ((dSum C fun c => dSum K fun k =>
      (dAvgProbs B C K D centers s x indexes c k).mul
        (((dAvgProbs B C K D centers s x indexes c k).add (Dual.c 1e-20)).log)).div
    (Dual.c (C : ℝ))).neg

/-- `entropy_loss` (line 324), dual; `math.log(codebook_size)` is a Python float,
hence constant. -/
def dEntropyLoss (B C K D : ℕ) (centers : ℕ → ℕ → ℕ → Dual) (s : Dual)
    (x : ℕ → ℕ → ℝ) (indexes : ℕ → ℕ → ℕ) : Dual :=
  (Dual.c (Real.log (K : ℝ))).sub (dClassEntropy B C K D centers s x indexes)

/-- `(x ** 2).sum()`, dual; `x` is data, hence constant. -/
def dXEnergy (B D : ℕ) (x : ℕ → ℕ → ℝ) : Dual :=
  dSum B fun b => dSum D fun d => (Dual.c (x b d)).mul (Dual.c (x b d))

/-- `reconstruction_loss` (line 325), dual. -/
def dReconstructionLoss (B C K D : ℕ) (centers : ℕ → ℕ → ℕ → Dual) (s : Dual)
    (x : ℕ → ℕ → ℝ) (indexes : ℕ → ℕ → ℕ) : Dual :=
  (dExpectedSumsq B C K D centers s x indexes).div (dXEnergy B D x)

end

/-! ### Concrete instances used by counterexamples and witnesses -/

/-- A center bank with `num_codebooks = 2`, `codebook_size = 2`, `dim = 1`:
both codebooks hold the centers `{0, 3}`. -/
def centersC1 : ℕ → ℕ → ℕ → ℚ := fun _ k _ => if k = 0 then 0 else 3

/-- A one-row batch (`B = 1`, `dim = 1`) with the single value `2`. -/
def xC1 : ℕ → ℕ → ℚ := fun _ _ => 2

/-- The all-zero code tuple. -/
def indexesC1 : ℕ → ℕ → ℕ := fun _ _ => 0

/-- The boundary example of the spec: `dim = 2`, `num_codebooks = 2`, `codebook_size = 2`,
`centers0 = [[1,0],[0,1]]`, `centers1 = [[0,1],[1,0]]`. -/
def centersC2 : ℕ → ℕ → ℕ → ℚ := fun c k d =>
  if c = 0 then (if k = 0 then (if d = 0 then 1 else 0) else (if d = 0 then 0 else 1))
  else (if k = 0 then (if d = 0 then 0 else 1) else (if d = 0 then 1 else 0))

/-- A concrete code tuple `[1, 0]` for `centersC2`. -/
def codeC2 : ℕ → ℕ := fun c => if c = 0 then 1 else 0

/-- An all-zero center bank. -/
def centersC3 : ℕ → ℕ → ℕ → ℚ := fun _ _ _ => 0

/-- A one-row batch with the single value `1`. -/
def xC3 : ℕ → ℕ → ℚ := fun _ _ => 1

/-- Three codebooks whose last codebook (index 2) holds the constant `5`. -/
def centersC9a : ℕ → ℕ → ℕ → ℚ := fun c _ _ => if c = 2 then 5 else 1

/-- Three codebooks whose last codebook (index 2) holds the constant `7`;
agrees with `centersC9a` on codebooks `0` and `1`. -/
def centersC9b : ℕ → ℕ → ℕ → ℚ := fun c _ _ => if c = 2 then 7 else 1

/-- The all-zero code tuple (shared by the real-valued concrete instances). -/
def zeroIdx : ℕ → ℕ → ℕ := fun _ _ => 0

noncomputable section

/-- An all-zero real input batch. -/
def zeroR : ℕ → ℕ → ℝ := fun _ _ => 0

/-- An all-zero real center bank. -/
def zeroCentersR : ℕ → ℕ → ℕ → ℝ := fun _ _ _ => 0

/-- A real center bank with `codebook_size = 2`, centers `1` and `2` (`dim = 1`). -/
def centersC4 : ℕ → ℕ → ℕ → ℝ := fun _ k _ => if k = 0 then 1 else 2

/-- A dual center bank whose entries all have value `0` and derivative `1`
(a direction that perturbs every center). -/
def dCentersOnes : ℕ → ℕ → ℕ → Dual := fun _ _ _ => ⟨0, 1⟩

/-- A dual center bank whose entries all have value `0` and derivative `0`. -/
def dCentersZero : ℕ → ℕ → ℕ → Dual := fun _ _ _ => ⟨0, 0⟩

/-- The temperature parameter with value `0` and derivative `1`
(the direction that perturbs only `frame_entropy_scale`). -/
def dSOne : Dual := ⟨0, 1⟩

end

/-! ## Helper lemmas -/

theorem argmaxIdx_lt {f : ℕ → ℚ} {K : ℕ} (hK : 0 < K) : argmaxIdx f K < K := by
  unfold argmaxIdx
  cases h : List.argmax f (List.range K) with
  | none =>
      have : List.range K = [] := List.argmax_eq_none.mp h
      simp [List.range_eq_nil] at this
      omega
  | some m =>
      have hm : m ∈ List.range K := List.argmax_mem (Option.mem_def.mpr h)
      simpa using List.mem_range.mp hm

theorem le_argmaxIdx {f : ℕ → ℚ} {K : ℕ} {j : ℕ} (hj : j < K) :
    f j ≤ f (argmaxIdx f K) := by
  unfold argmaxIdx
  cases h : List.argmax f (List.range K) with
  | none =>
      have : List.range K = [] := List.argmax_eq_none.mp h
      simp [List.range_eq_nil] at this
      omega
  | some m =>
      simpa using List.le_of_mem_argmax (List.mem_range.mpr hj) (Option.mem_def.mpr h)

theorem xErr_updateAt (C : ℕ) (centers : ℕ → ℕ → ℕ → ℚ) (x : ℕ → ℕ → ℚ)
    (indexes : ℕ → ℕ → ℕ) (b c k d : ℕ) (hc : c < C) :
    xErr C centers x (updateAt indexes b c k) b d
      = xErr C centers x indexes b d - curCenters centers indexes b c d + centers c k d := by
  unfold xErr curCenters updateAt
  have hsplit :
      ∑ c' ∈ Finset.range C, centers c' (if b = b ∧ c' = c then k else indexes b c') d
        = ∑ c' ∈ Finset.range C, (centers c' (indexes b c') d
            + if c' = c then centers c' k d - centers c' (indexes b c') d else 0) := by
    refine Finset.sum_congr rfl fun c' _ => ?_
    by_cases hc' : c' = c <;> simp [hc'] <;> ring
  rw [hsplit, Finset.sum_add_distrib, Finset.sum_ite_eq' (Finset.range C)]
  simp [Finset.mem_range.mpr hc]
  ring

theorem sqErrRow_updateAt (C D : ℕ) (centers : ℕ → ℕ → ℕ → ℚ) (x : ℕ → ℕ → ℚ)
    (indexes : ℕ → ℕ → ℕ) (b c k : ℕ) (hc : c < C) :
    sqErrRow C D centers x (updateAt indexes b c k) b
      = -(modifiedNegSumsqErrs C D centers x indexes b c k) := by
  unfold sqErrRow modifiedNegSumsqErrs modifiedErrs
  rw [neg_neg]
  exact Finset.sum_congr rfl fun d _ => by rw [xErr_updateAt C centers x indexes b c k d hc]

theorem modifiedNegSumsqErrs_self (C D : ℕ) (centers : ℕ → ℕ → ℕ → ℚ) (x : ℕ → ℕ → ℚ)
    (indexes : ℕ → ℕ → ℕ) (b c : ℕ) :
    modifiedNegSumsqErrs C D centers x indexes b c (indexes b c)
      = -(sqErrRow C D centers x indexes b) := by
  unfold modifiedNegSumsqErrs modifiedErrs sqErrRow curCenters
  congr 1
  exact Finset.sum_congr rfl fun d _ => by ring

theorem sum_pair_split (n : ℕ) (g : ℕ → ℚ) :
    ∑ c' ∈ Finset.range n, (g (2 * c') + g (2 * c' + 1)) = ∑ c ∈ Finset.range (2 * n), g c := by
  induction n with
  | zero => simp
  | succ m ih =>
      have h2 : 2 * (m + 1) = (2 * m + 1) + 1 := by ring
      rw [Finset.sum_range_succ, ih, h2, Finset.sum_range_succ, Finset.sum_range_succ]
      ring

@[simp] theorem Dual.c_val (r : ℝ) : (Dual.c r).val = r := rfl

@[simp] theorem Dual.c_dv (r : ℝ) : (Dual.c r).dv = 0 := rfl

@[simp] theorem Dual.detach_val (a : Dual) : (Dual.detach a).val = a.val := rfl

@[simp] theorem Dual.detach_dv (a : Dual) : (Dual.detach a).dv = 0 := rfl

@[simp] theorem Dual.add_val (a b : Dual) : (a.add b).val = a.val + b.val := rfl

@[simp] theorem Dual.add_dv (a b : Dual) : (a.add b).dv = a.dv + b.dv := rfl

@[simp] theorem Dual.sub_val (a b : Dual) : (a.sub b).val = a.val - b.val := rfl

@[simp] theorem Dual.sub_dv (a b : Dual) : (a.sub b).dv = a.dv - b.dv := rfl

@[simp] theorem Dual.mul_val (a b : Dual) : (a.mul b).val = a.val * b.val := rfl

@[simp] theorem Dual.mul_dv (a b : Dual) : (a.mul b).dv = a.dv * b.val + a.val * b.dv := rfl

@[simp] theorem Dual.neg_val (a : Dual) : (a.neg).val = -a.val := rfl

@[simp] theorem Dual.neg_dv (a : Dual) : (a.neg).dv = -a.dv := rfl

@[simp] theorem Dual.exp_val (a : Dual) : (a.exp).val = Real.exp a.val := rfl

@[simp] theorem Dual.exp_dv (a : Dual) : (a.exp).dv = a.dv * Real.exp a.val := rfl

@[simp] theorem Dual.log_val (a : Dual) : (a.log).val = Real.log a.val := rfl

@[simp] theorem Dual.log_dv (a : Dual) : (a.log).dv = a.dv / a.val := rfl

@[simp] theorem Dual.div_val (a b : Dual) : (a.div b).val = a.val / b.val := rfl

@[simp] theorem Dual.div_dv (a b : Dual) :
    (a.div b).dv = (a.dv * b.val - a.val * b.dv) / b.val ^ 2 := rfl

@[simp] theorem dSum_val (n : ℕ) (f : ℕ → Dual) :
    (dSum n f).val = ∑ i ∈ Finset.range n, (f i).val := rfl

@[simp] theorem dSum_dv (n : ℕ) (f : ℕ → Dual) :
    (dSum n f).dv = ∑ i ∈ Finset.range n, (f i).dv := rfl

theorem sum_exp_pos (K : ℕ) (l : ℕ → ℝ) (hK : 0 < K) :
    0 < ∑ j ∈ Finset.range K, Real.exp (l j) :=
  Finset.sum_pos (fun j _ => Real.exp_pos _) (Finset.nonempty_range_iff.mpr (by omega))

theorem softmax_pos (K : ℕ) (l : ℕ → ℝ) (k : ℕ) (hK : 0 < K) :
    0 < Real.exp (l k) / ∑ j ∈ Finset.range K, Real.exp (l j) :=
  div_pos (Real.exp_pos _) (sum_exp_pos K l hK)

theorem softmax_le_one (K : ℕ) (l : ℕ → ℝ) (k : ℕ) (hk : k < K) :
    Real.exp (l k) / (∑ j ∈ Finset.range K, Real.exp (l j)) ≤ 1 :=
  div_le_one_of_le
    (Finset.single_le_sum (fun j _ => (Real.exp_pos (l j)).le) (Finset.mem_range.mpr hk))
    (sum_exp_pos K l (by omega)).le

theorem softmax_sum_one (K : ℕ) (l : ℕ → ℝ) (hK : 0 < K) :
    ∑ k ∈ Finset.range K, Real.exp (l k) / (∑ j ∈ Finset.range K, Real.exp (l j)) = 1 := by
  rw [← Finset.sum_div, div_self (sum_exp_pos K l hK).ne']

theorem neg_sum_mul_log_nonneg (K : ℕ) (p : ℕ → ℝ)
    (h0 : ∀ k ∈ Finset.range K, 0 < p k) (h1 : ∀ k ∈ Finset.range K, p k ≤ 1) :
    0 ≤ -∑ k ∈ Finset.range K, p k * Real.log (p k) := by
  rw [neg_nonneg]
  refine Finset.sum_nonpos fun k hk => ?_
  have hlog : Real.log (p k) ≤ 0 := Real.log_nonpos (h0 k hk).le (h1 k hk)
  exact mul_nonpos_iff.mpr (Or.inl ⟨(h0 k hk).le, hlog⟩)

theorem neg_sum_mul_log_le_log_card (K : ℕ) (p : ℕ → ℝ)
    (h0 : ∀ k ∈ Finset.range K, 0 < p k) (h1 : ∑ k ∈ Finset.range K, p k = 1) :
    -∑ k ∈ Finset.range K, p k * Real.log (p k) ≤ Real.log (K : ℝ) := by
  have hK : 0 < K := by
    by_contra h
    have : K = 0 := by omega
    subst this
    simp at h1
  have hKR : (0 : ℝ) < (K : ℝ) := Nat.cast_pos.mpr hK
  have key : ∀ k ∈ Finset.range K, p k - ((K : ℝ))⁻¹ ≤ p k * Real.log ((K : ℝ) * p k) := by
    intro k hk
    have hp := h0 k hk
    have h3 : 0 < (K : ℝ) * p k := by positivity
    have h4 := Real.one_sub_inv_le_log_of_pos h3
    have h5 : p k * (1 - ((K : ℝ) * p k)⁻¹) ≤ p k * Real.log ((K : ℝ) * p k) :=
      mul_le_mul_of_nonneg_left h4 hp.le
    have h6 : p k * (1 - ((K : ℝ) * p k)⁻¹) = p k - ((K : ℝ))⁻¹ := by
      field_simp
      ring
    linarith
  have hsum := Finset.sum_le_sum key
  have hL : ∑ k ∈ Finset.range K, (p k - ((K : ℝ))⁻¹) = 0 := by
    rw [Finset.sum_sub_distrib, h1, Finset.sum_const, Finset.card_range, nsmul_eq_mul]
    field_simp
  have hR : ∑ k ∈ Finset.range K, p k * Real.log ((K : ℝ) * p k)
      = Real.log (K : ℝ) + ∑ k ∈ Finset.range K, p k * Real.log (p k) := by
    have hterm : ∀ k ∈ Finset.range K, p k * Real.log ((K : ℝ) * p k)
        = p k * Real.log (K : ℝ) + p k * Real.log (p k) := by
      intro k hk
      rw [Real.log_mul hKR.ne' (h0 k hk).ne']
      ring
    rw [Finset.sum_congr rfl hterm, Finset.sum_add_distrib, ← Finset.sum_mul, h1, one_mul]
  rw [hL, hR] at hsum
  linarith

theorem codebookProbs_pos (C K D : ℕ) (centers : ℕ → ℕ → ℕ → ℝ) (s : ℝ)
    (x : ℕ → ℕ → ℝ) (indexes : ℕ → ℕ → ℕ) (b c k : ℕ) (hK : 0 < K) :
    0 < codebookProbs C K D centers s x indexes b c k := by
  unfold codebookProbs
  exact softmax_pos K _ k hK

theorem codebookProbs_sum_one (C K D : ℕ) (centers : ℕ → ℕ → ℕ → ℝ) (s : ℝ)
    (x : ℕ → ℕ → ℝ) (indexes : ℕ → ℕ → ℕ) (b c : ℕ) (hK : 0 < K) :
    ∑ k ∈ Finset.range K, codebookProbs C K D centers s x indexes b c k = 1 := by
  unfold codebookProbs
  exact softmax_sum_one K _ hK

theorem avgProbs_pos (B C K D : ℕ) (centers : ℕ → ℕ → ℕ → ℝ) (s : ℝ)
    (x : ℕ → ℕ → ℝ) (indexes : ℕ → ℕ → ℕ) (c k : ℕ) (hB : 0 < B) (hK : 0 < K) :
    0 < avgProbs B C K D centers s x indexes c k := by
  unfold avgProbs
  exact div_pos
    (Finset.sum_pos (fun b _ => codebookProbs_pos C K D centers s x indexes b c k hK)
      (Finset.nonempty_range_iff.mpr hB.ne'))
    (Nat.cast_pos.mpr hB)

theorem avgProbs_sum_one (B C K D : ℕ) (centers : ℕ → ℕ → ℕ → ℝ) (s : ℝ)
    (x : ℕ → ℕ → ℝ) (indexes : ℕ → ℕ → ℕ) (c : ℕ) (hB : 0 < B) (hK : 0 < K) :
    ∑ k ∈ Finset.range K, avgProbs B C K D centers s x indexes c k = 1 := by
  unfold avgProbs
  rw [← Finset.sum_div, Finset.sum_comm]
  rw [Finset.sum_congr rfl fun b _ => codebookProbs_sum_one C K D centers s x indexes b c hK]
  rw [Finset.sum_const, Finset.card_range, nsmul_eq_mul, mul_one]
  exact div_self (Nat.cast_pos.mpr hB).ne'

/-! ## Claim theorems -/

/-- C1 (counterexample).  The claim as stated is false: with `num_codebooks = 2`,
`codebook_size = 2`, `dim = 1`, centers `{0, 3}` in both codebooks, target `x = 2`,
and the all-zero input code, each codebook independently prefers the candidate `3`
(per-codebook hypothetical error `1 < 4`), but the two simultaneous swaps made by
`refine_indexes` yield reconstruction `6` and squared error `16 > 4`. -/
theorem C1_refine_can_increase_error :
    sqErrRow 2 1 centersC1 xC1 indexesC1 0
      < sqErrRow 2 1 centersC1 xC1 (refine_indexes 2 1 2 centersC1 xC1 indexesC1) 0 := by
  have hr : ∀ c : ℕ, refine_indexes 2 1 2 centersC1 xC1 indexesC1 0 c = 1 := by
    intro c
    show argmaxIdx _ 2 = 1
    unfold argmaxIdx
    norm_num [List.range_succ, List.argmax, List.argAux,
      modifiedNegSumsqErrs, modifiedErrs, xErr, curCenters, centersC1, xC1, indexesC1,
      Finset.sum_range_succ]
  norm_num [sqErrRow, xErr, curCenters, hr, centersC1, xC1, indexesC1, Finset.sum_range_succ]

/-- C1 (amended).  For every codebook `c` of the input code tuple, swapping codebook `c`
alone to the candidate selected by `refine_indexes` (all other codebooks left at their
input values) never increases the squared reconstruction error: the selected candidate
maximizes `modified_neg_sumsq_errs`, and the current candidate is among the compared
options.  (The simultaneous update across several codebooks that `refine_indexes`
actually returns can increase the error, as `C1_refine_can_increase_error` shows.) -/
theorem C1_single_codebook_refine_not_worse
    (C D K : ℕ) (centers : ℕ → ℕ → ℕ → ℚ) (x : ℕ → ℕ → ℚ) (indexes : ℕ → ℕ → ℕ)
    (b c : ℕ) (hc : c < C) (hidx : indexes b c < K) :
    sqErrRow C D centers x
        (updateAt indexes b c (refine_indexes C D K centers x indexes b c)) b
      ≤ sqErrRow C D centers x indexes b := by
  have h1 : modifiedNegSumsqErrs C D centers x indexes b c (indexes b c)
      ≤ modifiedNegSumsqErrs C D centers x indexes b c
          (argmaxIdx (fun k => modifiedNegSumsqErrs C D centers x indexes b c k) K) :=
    le_argmaxIdx hidx
  have h2 := modifiedNegSumsqErrs_self C D centers x indexes b c
  have h3 : refine_indexes C D K centers x indexes b c
      = argmaxIdx (fun k => modifiedNegSumsqErrs C D centers x indexes b c k) K := rfl
  rw [sqErrRow_updateAt C D centers x indexes b c _ hc, h3]
  linarith

/-- Witness for `C1_single_codebook_refine_not_worse` at the concrete instance of
`C1_refine_can_increase_error`, discharging both hypotheses. -/
theorem C1_single_codebook_refine_not_worse_witness :
    (0 : ℕ) < 2 ∧ indexesC1 0 0 < 2 ∧
      sqErrRow 2 1 centersC1 xC1
          (updateAt indexesC1 0 0 (refine_indexes 2 1 2 centersC1 xC1 indexesC1 0 0)) 0
        ≤ sqErrRow 2 1 centersC1 xC1 indexesC1 0 :=
  ⟨by decide, by decide,
    C1_single_codebook_refine_not_worse 2 1 2 centersC1 xC1 indexesC1 0 0
      (by decide) (by decide)⟩

/-- C2.  For even `num_codebooks`, `get_product_quantizer` builds
`new_centers[c'][k1*K + k2] = centers[2c'][k1] + centers[2c'+1][k2]` for all `c'` and all
`k1, k2 < K`; consequently the merged quantizer's `decode` of the paired code
`c' ↦ code(2c')*K + code(2c'+1)` equals the original quantizer's `decode` of `code`,
for every code tuple with components in `[0, K)`. -/
theorem C2_product_quantizer_merge (C K D : ℕ) (centers : ℕ → ℕ → ℕ → ℚ)
    (hC : C % 2 = 0) :
    (∀ c' k1 k2 d, k1 < K → k2 < K →
        productCenters K centers c' (k1 * K + k2) d
          = centers (2 * c') k1 d + centers (2 * c' + 1) k2 d)
    ∧ ∀ code : ℕ → ℕ, ∀ d, (∀ c, c < C → code c < K) →
        decode (newNumCodebooks C) (productCenters K centers) (pairedCode K code) d
          = decode C centers code d := by
  have hpart1 : ∀ c' k1 k2 d, k1 < K → k2 < K →
      productCenters K centers c' (k1 * K + k2) d
        = centers (2 * c') k1 d + centers (2 * c' + 1) k2 d := by
    intro c' k1 k2 d hk1 hk2
    have hK : 0 < K := Nat.lt_of_le_of_lt (Nat.zero_le k2) hk2
    have hdiv : (k1 * K + k2) / K = k1 := by
      rw [mul_comm, Nat.mul_add_div hK, Nat.div_eq_of_lt hk2, Nat.add_zero]
    have hmod : (k1 * K + k2) % K = k2 := by
      rw [Nat.add_comm, Nat.add_mul_mod_self_right, Nat.mod_eq_of_lt hk2]
    unfold productCenters
    rw [hdiv, hmod]
  refine ⟨hpart1, ?_⟩
  intro code d hcode
  unfold decode pairedCode newNumCodebooks
  have hterm : ∀ c' ∈ Finset.range (C / 2),
      productCenters K centers c' (code (2 * c') * K + code (2 * c' + 1)) d
        = centers (2 * c') (code (2 * c')) d + centers (2 * c' + 1) (code (2 * c' + 1)) d := by
    intro c' hc'
    have hc'2 : c' < C / 2 := Finset.mem_range.mp hc'
    exact hpart1 c' _ _ d (hcode _ (by omega)) (hcode _ (by omega))
  rw [Finset.sum_congr rfl hterm]
  have hsplit := sum_pair_split (C / 2) (fun c => centers c (code c) d)
  have hCC : 2 * (C / 2) = C := by omega
  rw [hCC] at hsplit
  simpa using hsplit

/-- Witness for `C2_product_quantizer_merge` at the spec's boundary example
(`C = 2`, `K = 2`, `dim = 2`), discharging the evenness hypothesis and the
in-range hypotheses. -/
theorem C2_product_quantizer_merge_witness :
    (2 : ℕ) % 2 = 0
    ∧ productCenters 2 centersC2 0 (1 * 2 + 0) 1 = centersC2 0 1 1 + centersC2 1 0 1
    ∧ decode (newNumCodebooks 2) (productCenters 2 centersC2) (pairedCode 2 codeC2) 0
        = decode 2 centersC2 codeC2 0 :=
  ⟨rfl,
    (C2_product_quantizer_merge 2 2 2 centersC2 rfl).1 0 1 0 1 (by norm_num) (by norm_num),
    (C2_product_quantizer_merge 2 2 2 centersC2 rfl).2 codeC2 0
      (fun c _ => by unfold codeC2; split <;> norm_num)⟩

/-- C9.  When `num_codebooks` is odd, `get_product_quantizer` raises no error (the source
has no assertion; the embedding is a total function): it returns a quantizer with
`num_codebooks // 2 = (num_codebooks - 1) / 2` codebooks whose centers depend only on the
first `num_codebooks - 1` source codebooks — two center banks agreeing everywhere except
on the last source codebook produce identical merged banks. -/
theorem C9_odd_num_codebooks_silently_truncates (C K : ℕ)
    (centers1 centers2 : ℕ → ℕ → ℕ → ℚ) (hC : C % 2 = 1)
    (hagree : ∀ c k d, c < C - 1 → centers1 c k d = centers2 c k d) :
    newNumCodebooks C = (C - 1) / 2
    ∧ ∀ c' k' d, c' < newNumCodebooks C →
        productCenters K centers1 c' k' d = productCenters K centers2 c' k' d := by
  constructor
  · unfold newNumCodebooks
    omega
  · intro c' k' d hc'
    unfold newNumCodebooks at hc'
    unfold productCenters
    rw [hagree _ _ _ (by omega), hagree _ _ _ (by omega)]

/-- Witness for `C9_odd_num_codebooks_silently_truncates` at `C = 3`, `K = 2`, with two
banks that differ only in the discarded last codebook. -/
theorem C9_odd_num_codebooks_silently_truncates_witness :
    newNumCodebooks 3 = (3 - 1) / 2
    ∧ productCenters 2 centersC9a 0 3 0 = productCenters 2 centersC9b 0 3 0 :=
  ⟨(C9_odd_num_codebooks_silently_truncates 3 2 centersC9a centersC9b rfl
      (fun c k d hc => by
        unfold centersC9a centersC9b
        rw [if_neg (by omega), if_neg (by omega)])).1,
    (C9_odd_num_codebooks_silently_truncates 3 2 centersC9a centersC9b rfl
      (fun c k d hc => by
        unfold centersC9a centersC9b
        rw [if_neg (by omega), if_neg (by omega)])).2 0 3 0 (by norm_num [newNumCodebooks])⟩

/-- C3 (code bug).  The claim says `compute_ref_loss(x)` returns, without raising any
error, the relative sum-squared reconstruction error.  The code's own docstring promises
the same, but its first statement calls the undefined attribute `_logits`
(and later `_to_output`), so every call raises `AttributeError` instead: here evaluated
at the failing input `dim = 1`, `codebook_size = 2`, `num_codebooks = 1`, `x = [[1]]`. -/
theorem C3_compute_ref_loss_raises_attribute_error :
    compute_ref_loss 1 2 1 centersC3 xC3 = Except.error PyError.attributeError := rfl

/-- C6.  In `forward`, each component of the initial code tuple is drawn by
`torch.randint(codebook_size - 1, ...)`, i.e. uniformly from `{0, ..., codebook_size-2}`:
the last candidate `codebook_size - 1` has probability zero at initialization, and every
`v < codebook_size - 1` has probability `1 / (codebook_size - 1)`. -/
theorem C6_forward_init_excludes_last_index (K : ℕ) (hK : 2 ≤ K) :
    forwardInitProb K (K - 1) = 0
    ∧ ∀ v, v < K - 1 → forwardInitProb K v = ((K - 1 : ℕ) : ℚ)⁻¹ := by
  constructor
  · unfold forwardInitProb randintProb
    rw [if_neg (by omega)]
  · intro v hv
    unfold forwardInitProb randintProb
    rw [if_pos hv]

/-- Witness for `C6_forward_init_excludes_last_index` at `codebook_size = 4`. -/
theorem C6_forward_init_excludes_last_index_witness :
    (2 ≤ 4)
    ∧ forwardInitProb 4 (4 - 1) = 0
    ∧ forwardInitProb 4 2 = ((4 - 1 : ℕ) : ℚ)⁻¹ :=
  ⟨by norm_num, (C6_forward_init_excludes_last_index 4 (by norm_num)).1,
    (C6_forward_init_excludes_last_index 4 (by norm_num)).2 2 (by norm_num)⟩

/-- C5.  In the dual-number (forward-mode autograd) semantics of
`refine_indexes_stochastic`: along any direction that leaves `frame_entropy_scale`
fixed (`s.dv = 0`, centers perturbed arbitrarily), `frame_entropy` has derivative `0` —
no gradient flows from `frame_entropy` into the centers; and along any direction that
leaves the centers fixed (every center has derivative `0`, `s` perturbed arbitrarily),
`entropy_loss` and `reconstruction_loss` both have derivative `0` — no gradient flows
from them into `frame_entropy_scale`.  Hence the temperature receives gradient only
through `frame_entropy`, and the centers only through `entropy_loss` and
`reconstruction_loss`. -/
theorem C5_gradient_separation (B C K D : ℕ) (centers : ℕ → ℕ → ℕ → Dual) (s : Dual)
    (x : ℕ → ℕ → ℝ) (indexes : ℕ → ℕ → ℕ) :
    (s.dv = 0 → (dAvgFrameEntropy B C K D centers s x indexes).dv = 0)
    ∧ ((∀ c k d, (centers c k d).dv = 0) →
        (dEntropyLoss B C K D centers s x indexes).dv = 0
        ∧ (dReconstructionLoss B C K D centers s x indexes).dv = 0) := by
  constructor
  · intro hs
    have h1 : ∀ b c k, (dScaledNegSumsqErrsDetached C D centers s x indexes b c k).dv = 0 := by
      intro b c k
      simp [dScaledNegSumsqErrsDetached, hs]
    have h2 : ∀ b c k, (dCodebookLogprobsDetached C K D centers s x indexes b c k).dv = 0 := by
      intro b c k
      simp [dCodebookLogprobsDetached, h1]
    have h3 : ∀ b c k, (dCodebookProbsDetached C K D centers s x indexes b c k).dv = 0 := by
      intro b c k
      simp [dCodebookProbsDetached, h1]
    simp [dAvgFrameEntropy, h2, h3]
  · intro hc
    have k4 : ∀ b c k, (dModifiedSumsqErrs C D centers x indexes b c k).dv = 0 := by
      intro b c k
      simp [dModifiedSumsqErrs, dModifiedErrs, dXErr, dCurCenters, hc]
    have k5 : ∀ b c k, (dScaledNegSumsqErrs C D centers s x indexes b c k).dv = 0 := by
      intro b c k
      simp [dScaledNegSumsqErrs, k4]
    have k6 : ∀ b c k, (dCodebookProbs C K D centers s x indexes b c k).dv = 0 := by
      intro b c k
      simp [dCodebookProbs, k5]
    constructor
    · have k7 : ∀ c k, (dAvgProbs B C K D centers s x indexes c k).dv = 0 := by
        intro c k
        simp [dAvgProbs, k6]
      simp [dEntropyLoss, dClassEntropy, k7]
    · simp [dReconstructionLoss, dExpectedSumsq, dXEnergy, k4, k6]

/-- Witness for `C5_gradient_separation` at `B = C = K = D = 1`: the first part along a
direction perturbing every center but not the temperature, the second along the
direction perturbing only the temperature. -/
theorem C5_gradient_separation_witness :
    (dAvgFrameEntropy 1 1 1 1 dCentersOnes (Dual.c 0) zeroR zeroIdx).dv = 0
    ∧ (dEntropyLoss 1 1 1 1 dCentersZero dSOne zeroR zeroIdx).dv = 0
    ∧ (dReconstructionLoss 1 1 1 1 dCentersZero dSOne zeroR zeroIdx).dv = 0 :=
  ⟨(C5_gradient_separation 1 1 1 1 dCentersOnes (Dual.c 0) zeroR zeroIdx).1 rfl,
    ((C5_gradient_separation 1 1 1 1 dCentersZero dSOne zeroR zeroIdx).2
      (fun _ _ _ => rfl)).1,
    ((C5_gradient_separation 1 1 1 1 dCentersZero dSOne zeroR zeroIdx).2
      (fun _ _ _ => rfl)).2⟩

/-- C10.  The distribution sampled by line 303 (the categorical distribution on the
logits `codebook_logprobs_detached`, also the one `frame_entropy` is computed from)
is numerically equal to `codebook_probs_detached`, which is numerically equal to the
`codebook_probs` used for `reconstruction_loss` and `entropy_loss`, and both equal the
softmax over candidates of `-(squared candidate error) * exp (10 * frame_entropy_scale)`:
the two detachment variants differ only in gradient flow, never in value. -/
theorem C10_sampling_and_loss_distributions_agree (C K D : ℕ)
    (centers : ℕ → ℕ → ℕ → ℝ) (s : ℝ) (x : ℕ → ℕ → ℝ) (indexes : ℕ → ℕ → ℕ)
    (b c k : ℕ) (hK : 0 < K) :
    samplingProbs C K D centers s x indexes b c k
        = codebookProbsDetached C K D centers s x indexes b c k
    ∧ codebookProbsDetached C K D centers s x indexes b c k
        = codebookProbs C K D centers s x indexes b c k
    ∧ codebookProbs C K D centers s x indexes b c k
        = softmaxSpecC10 C K D centers s x indexes b c k := by
  refine ⟨?_, ?_, ?_⟩
  · have hS : 0 < ∑ j ∈ Finset.range K,
        Real.exp (scaledNegSumsqErrsDetached C D centers s x indexes b c j) :=
      sum_exp_pos K _ hK
    have hexp : ∀ j, Real.exp (codebookLogprobsDetached C K D centers s x indexes b c j)
        = Real.exp (scaledNegSumsqErrsDetached C D centers s x indexes b c j)
          / ∑ i ∈ Finset.range K,
              Real.exp (scaledNegSumsqErrsDetached C D centers s x indexes b c i) := by
      intro j
      unfold codebookLogprobsDetached
      rw [Real.exp_sub, Real.exp_log hS]
    unfold samplingProbs codebookProbsDetached
    rw [hexp k, Finset.sum_congr rfl fun j _ => hexp j, ← Finset.sum_div,
      div_self hS.ne', div_one]
  · rfl
  · have harg : ∀ j, scaledNegSumsqErrs C D centers s x indexes b c j
        = -(modifiedSumsqErrsR C D centers x indexes b c j) * Real.exp (10 * s) := by
      intro j
      unfold scaledNegSumsqErrs detach
      ring
    unfold codebookProbs softmaxSpecC10
    rw [harg k, Finset.sum_congr rfl fun j _ => by rw [harg j]]

/-- Witness for `C10_sampling_and_loss_distributions_agree` at `K = 2` with all-zero
centers and input. -/
theorem C10_sampling_and_loss_distributions_agree_witness :
    (0 < 2)
    ∧ samplingProbs 1 2 1 zeroCentersR 0 zeroR zeroIdx 0 0 0
        = codebookProbsDetached 1 2 1 zeroCentersR 0 zeroR zeroIdx 0 0 0
    ∧ codebookProbsDetached 1 2 1 zeroCentersR 0 zeroR zeroIdx 0 0 0
        = codebookProbs 1 2 1 zeroCentersR 0 zeroR zeroIdx 0 0 0
    ∧ codebookProbs 1 2 1 zeroCentersR 0 zeroR zeroIdx 0 0 0
        = softmaxSpecC10 1 2 1 zeroCentersR 0 zeroR zeroIdx 0 0 0 :=
  ⟨by norm_num,
    (C10_sampling_and_loss_distributions_agree 1 2 1 zeroCentersR 0 zeroR zeroIdx 0 0 0
      (by norm_num)).1,
    (C10_sampling_and_loss_distributions_agree 1 2 1 zeroCentersR 0 zeroR zeroIdx 0 0 0
      (by norm_num)).2.1,
    (C10_sampling_and_loss_distributions_agree 1 2 1 zeroCentersR 0 zeroR zeroIdx 0 0 0
      (by norm_num)).2.2⟩

/-- C8.  For every input batch, code tuple, center bank and temperature value, the
`frame_entropy` returned by `refine_indexes_stochastic` (and hence by `forward`) lies
in `[0, log codebook_size]`: it is the mean over batch rows and codebooks of the entropy
of the per-frame softmax selection distribution. -/
theorem C8_frame_entropy_in_zero_log_K (B C K D : ℕ) (centers : ℕ → ℕ → ℕ → ℝ) (s : ℝ)
    (x : ℕ → ℕ → ℝ) (indexes : ℕ → ℕ → ℕ) (hB : 0 < B) (hC : 0 < C) (hK : 0 < K) :
    0 ≤ avgFrameEntropy B C K D centers s x indexes
    ∧ avgFrameEntropy B C K D centers s x indexes ≤ Real.log (K : ℝ) := by
  have key : ∀ b c,
      0 ≤ -∑ k ∈ Finset.range K,
            codebookLogprobsDetached C K D centers s x indexes b c k
              * codebookProbsDetached C K D centers s x indexes b c k
      ∧ -∑ k ∈ Finset.range K,
            codebookLogprobsDetached C K D centers s x indexes b c k
              * codebookProbsDetached C K D centers s x indexes b c k
          ≤ Real.log (K : ℝ) := by
    intro b c
    have hS : 0 < ∑ j ∈ Finset.range K,
        Real.exp (scaledNegSumsqErrsDetached C D centers s x indexes b c j) :=
      sum_exp_pos K _ hK
    have hlog : ∀ k, codebookLogprobsDetached C K D centers s x indexes b c k
        = Real.log (codebookProbsDetached C K D centers s x indexes b c k) := by
      intro k
      unfold codebookLogprobsDetached codebookProbsDetached
      rw [Real.log_div (Real.exp_ne_zero _) hS.ne', Real.log_exp]
    have hrw : ∑ k ∈ Finset.range K,
        codebookLogprobsDetached C K D centers s x indexes b c k
          * codebookProbsDetached C K D centers s x indexes b c k
        = ∑ k ∈ Finset.range K,
            codebookProbsDetached C K D centers s x indexes b c k
              * Real.log (codebookProbsDetached C K D centers s x indexes b c k) :=
      Finset.sum_congr rfl fun k _ => by rw [hlog k]; ring
    have hpos : ∀ k ∈ Finset.range K,
        0 < codebookProbsDetached C K D centers s x indexes b c k := by
      intro k _
      unfold codebookProbsDetached
      exact softmax_pos K _ k hK
    have hle1 : ∀ k ∈ Finset.range K,
        codebookProbsDetached C K D centers s x indexes b c k ≤ 1 := by
      intro k hk
      unfold codebookProbsDetached
      exact softmax_le_one K _ k (Finset.mem_range.mp hk)
    have hsum1 : ∑ k ∈ Finset.range K,
        codebookProbsDetached C K D centers s x indexes b c k = 1 := by
      unfold codebookProbsDetached
      exact softmax_sum_one K _ hK
    rw [hrw]
    exact ⟨neg_sum_mul_log_nonneg K _ hpos hle1,
      neg_sum_mul_log_le_log_card K _ hpos hsum1⟩
  have hBC : (0 : ℝ) < (B : ℝ) * (C : ℝ) :=
    mul_pos (Nat.cast_pos.mpr hB) (Nat.cast_pos.mpr hC)
  unfold avgFrameEntropy
  constructor
  · have hT : (∑ b ∈ Finset.range B, ∑ c ∈ Finset.range C, ∑ k ∈ Finset.range K,
        codebookLogprobsDetached C K D centers s x indexes b c k
          * codebookProbsDetached C K D centers s x indexes b c k) ≤ 0 :=
      Finset.sum_nonpos fun b _ => Finset.sum_nonpos fun c _ => by linarith [(key b c).1]
    have h' : (∑ b ∈ Finset.range B, ∑ c ∈ Finset.range C, ∑ k ∈ Finset.range K,
        codebookLogprobsDetached C K D centers s x indexes b c k
          * codebookProbsDetached C K D centers s x indexes b c k)
        / ((B : ℝ) * (C : ℝ)) ≤ 0 :=
      div_nonpos_iff.mpr (Or.inr ⟨hT, hBC.le⟩)
    linarith
  · have h1 : ∀ b ∈ Finset.range B,
        -(∑ c ∈ Finset.range C, ∑ k ∈ Finset.range K,
            codebookLogprobsDetached C K D centers s x indexes b c k
              * codebookProbsDetached C K D centers s x indexes b c k)
          ≤ (C : ℝ) * Real.log (K : ℝ) := by
      intro b _
      calc -(∑ c ∈ Finset.range C, ∑ k ∈ Finset.range K,
              codebookLogprobsDetached C K D centers s x indexes b c k
                * codebookProbsDetached C K D centers s x indexes b c k)
          = ∑ c ∈ Finset.range C, -(∑ k ∈ Finset.range K,
              codebookLogprobsDetached C K D centers s x indexes b c k
                * codebookProbsDetached C K D centers s x indexes b c k) := by
            rw [Finset.sum_neg_distrib]
        _ ≤ ∑ c ∈ Finset.range C, Real.log (K : ℝ) :=
            Finset.sum_le_sum fun c _ => (key b c).2
        _ = (C : ℝ) * Real.log (K : ℝ) := by
            rw [Finset.sum_const, Finset.card_range, nsmul_eq_mul]
    have hT : -(∑ b ∈ Finset.range B, ∑ c ∈ Finset.range C, ∑ k ∈ Finset.range K,
        codebookLogprobsDetached C K D centers s x indexes b c k
          * codebookProbsDetached C K D centers s x indexes b c k)
        ≤ (B : ℝ) * ((C : ℝ) * Real.log (K : ℝ)) := by
      calc -(∑ b ∈ Finset.range B, ∑ c ∈ Finset.range C, ∑ k ∈ Finset.range K,
              codebookLogprobsDetached C K D centers s x indexes b c k
                * codebookProbsDetached C K D centers s x indexes b c k)
          = ∑ b ∈ Finset.range B, -(∑ c ∈ Finset.range C, ∑ k ∈ Finset.range K,
              codebookLogprobsDetached C K D centers s x indexes b c k
                * codebookProbsDetached C K D centers s x indexes b c k) := by
            rw [Finset.sum_neg_distrib]
        _ ≤ ∑ b ∈ Finset.range B, (C : ℝ) * Real.log (K : ℝ) :=
            Finset.sum_le_sum h1
        _ = (B : ℝ) * ((C : ℝ) * Real.log (K : ℝ)) := by
            rw [Finset.sum_const, Finset.card_range, nsmul_eq_mul]
    have heq : -((∑ b ∈ Finset.range B, ∑ c ∈ Finset.range C, ∑ k ∈ Finset.range K,
        codebookLogprobsDetached C K D centers s x indexes b c k
          * codebookProbsDetached C K D centers s x indexes b c k)
        / ((B : ℝ) * (C : ℝ)))
        = (-(∑ b ∈ Finset.range B, ∑ c ∈ Finset.range C, ∑ k ∈ Finset.range K,
            codebookLogprobsDetached C K D centers s x indexes b c k
              * codebookProbsDetached C K D centers s x indexes b c k))
          / ((B : ℝ) * (C : ℝ)) := by
      ring
    rw [heq, div_le_iff hBC]
    have hring : (B : ℝ) * ((C : ℝ) * Real.log (K : ℝ))
        = Real.log (K : ℝ) * ((B : ℝ) * (C : ℝ)) := by ring
    linarith

/-- Witness for `C8_frame_entropy_in_zero_log_K` at `B = C = 1`, `K = 2`, `D = 1` with
all-zero centers and input. -/
theorem C8_frame_entropy_in_zero_log_K_witness :
    (0 < 1) ∧ (0 < 2)
    ∧ 0 ≤ avgFrameEntropy 1 1 2 1 zeroCentersR 0 zeroR zeroIdx
    ∧ avgFrameEntropy 1 1 2 1 zeroCentersR 0 zeroR zeroIdx ≤ Real.log ((2 : ℕ) : ℝ) :=
  ⟨by norm_num, by norm_num,
    (C8_frame_entropy_in_zero_log_K 1 1 2 1 zeroCentersR 0 zeroR zeroIdx
      (by norm_num) (by norm_num) (by norm_num)).1,
    (C8_frame_entropy_in_zero_log_K 1 1 2 1 zeroCentersR 0 zeroR zeroIdx
      (by norm_num) (by norm_num) (by norm_num)).2⟩

/-- C7 (counterexample).  The claim's iff fails in the uniform direction: with all-zero
centers and input (`B = C = 1`, `K = 2`, `D = 1`) the batch-averaged usage distribution
is exactly uniform (`1/2, 1/2`), yet `entropy_loss` is not `0` — line 322 adds `1e-20`
inside the logarithm, so `class_entropy = -log (1/2 + 1e-20) < log 2` and
`entropy_loss = log (1 + 2e-20) > 0`. -/
theorem C7_uniform_usage_entropy_loss_nonzero :
    avgProbs 1 1 2 1 zeroCentersR 0 zeroR zeroIdx 0 0 = 1 / 2
    ∧ avgProbs 1 1 2 1 zeroCentersR 0 zeroR zeroIdx 0 1 = 1 / 2
    ∧ entropyLoss 1 1 2 1 zeroCentersR 0 zeroR zeroIdx ≠ 0 := by
  have hp : ∀ b c k, codebookProbs 1 2 1 zeroCentersR 0 zeroR zeroIdx b c k = 1 / 2 := by
    intro b c k
    simp [codebookProbs, scaledNegSumsqErrs, modifiedSumsqErrsR, modifiedErrsR, xErrR,
      curCentersR, detach, zeroCentersR, zeroR, zeroIdx,
      Finset.sum_range_succ, Finset.sum_range_zero]
  have ha : ∀ c k, avgProbs 1 1 2 1 zeroCentersR 0 zeroR zeroIdx c k = 1 / 2 := by
    intro c k
    simp [avgProbs, hp, Finset.sum_range_succ, Finset.sum_range_zero]
  refine ⟨ha 0 0, ha 0 1, ?_⟩
  have h : entropyLoss 1 1 2 1 zeroCentersR 0 zeroR zeroIdx
      = Real.log 2 + Real.log (1 / 2 + 1e-20) := by
    simp [entropyLoss, classEntropy, ha, Finset.sum_range_succ, Finset.sum_range_zero]
  rw [h, ← Real.log_mul (by norm_num) (by norm_num)]
  have h2 : (2 : ℝ) * (1 / 2 + 1e-20) = 1 + 2 * 1e-20 := by norm_num
  rw [h2]
  exact ne_of_gt (Real.log_pos (by norm_num))

/-- C7 (amended).  `entropy_loss` is strictly positive for every input, code tuple,
center bank and temperature (with at least one batch row, codebook and candidate):
because line 322 adds `1e-20` inside the logarithm, the computed class entropy is
strictly below the true entropy of the batch-averaged usage distribution, which is at
most `log codebook_size`; so `entropy_loss` never equals `0` exactly — not even at
exactly uniform usage (where it equals `log (1 + K * 1e-20)`), and it exceeds
`log K` minus the true usage entropy for non-uniform usage. -/
theorem C7_entropy_loss_always_positive (B C K D : ℕ) (centers : ℕ → ℕ → ℕ → ℝ) (s : ℝ)
    (x : ℕ → ℕ → ℝ) (indexes : ℕ → ℕ → ℕ) (hB : 0 < B) (hC : 0 < C) (hK : 0 < K) :
    0 < entropyLoss B C K D centers s x indexes := by
  have key : ∀ c ∈ Finset.range C,
      -Real.log (K : ℝ) < ∑ k ∈ Finset.range K,
        avgProbs B C K D centers s x indexes c k
          * Real.log (avgProbs B C K D centers s x indexes c k + 1e-20) := by
    intro c _
    have hpos : ∀ k ∈ Finset.range K, 0 < avgProbs B C K D centers s x indexes c k :=
      fun k _ => avgProbs_pos B C K D centers s x indexes c k hB hK
    have h1 : ∑ k ∈ Finset.range K,
        avgProbs B C K D centers s x indexes c k
          * Real.log (avgProbs B C K D centers s x indexes c k)
        < ∑ k ∈ Finset.range K,
            avgProbs B C K D centers s x indexes c k
              * Real.log (avgProbs B C K D centers s x indexes c k + 1e-20) := by
      refine Finset.sum_lt_sum_of_nonempty (Finset.nonempty_range_iff.mpr hK.ne') ?_
      intro k hk
      have hak := hpos k hk
      have heps : (0 : ℝ) < 1e-20 := by norm_num
      have hlt : avgProbs B C K D centers s x indexes c k
          < avgProbs B C K D centers s x indexes c k + 1e-20 := by linarith
      exact mul_lt_mul_of_pos_left (Real.log_lt_log hak hlt) hak
    have h2 : -∑ k ∈ Finset.range K,
        avgProbs B C K D centers s x indexes c k
          * Real.log (avgProbs B C K D centers s x indexes c k)
        ≤ Real.log (K : ℝ) :=
      neg_sum_mul_log_le_log_card K _ hpos
        (avgProbs_sum_one B C K D centers s x indexes c hB hK)
    linarith
  have hCR : (0 : ℝ) < (C : ℝ) := Nat.cast_pos.mpr hC
  have hsum : (C : ℝ) * (-Real.log (K : ℝ))
      < ∑ c ∈ Finset.range C, ∑ k ∈ Finset.range K,
          avgProbs B C K D centers s x indexes c k
            * Real.log (avgProbs B C K D centers s x indexes c k + 1e-20) := by
    have h3 := Finset.sum_lt_sum_of_nonempty (Finset.nonempty_range_iff.mpr hC.ne') key
    rw [Finset.sum_const, Finset.card_range, nsmul_eq_mul] at h3
    exact h3
  unfold entropyLoss classEntropy
  have hdiv : -Real.log (K : ℝ)
      < (∑ c ∈ Finset.range C, ∑ k ∈ Finset.range K,
          avgProbs B C K D centers s x indexes c k
            * Real.log (avgProbs B C K D centers s x indexes c k + 1e-20)) / (C : ℝ) := by
    rw [lt_div_iff hCR]
    have heq : -Real.log (K : ℝ) * (C : ℝ) = (C : ℝ) * (-Real.log (K : ℝ)) := by ring
    linarith
  linarith

/-- Witness for `C7_entropy_loss_always_positive` at `B = C = 1`, `K = 2`, `D = 1` with
all-zero centers and input. -/
theorem C7_entropy_loss_always_positive_witness :
    (0 < 1) ∧ (0 < 2)
    ∧ 0 < entropyLoss 1 1 2 1 zeroCentersR 0 zeroR zeroIdx :=
  ⟨by norm_num, by norm_num,
    C7_entropy_loss_always_positive 1 1 2 1 zeroCentersR 0 zeroR zeroIdx
      (by norm_num) (by norm_num) (by norm_num)⟩

/-- C4 (counterexample).  The claim is false for the division producing
`reconstruction_loss` in `refine_indexes_stochastic`: line 325 divides by `(x**2).sum()`
with no epsilon.  At the all-zero batch (`B = 1`, `dim = 1`) the energy is `0`, so the
division is by zero (value `0` in the real-field convention; `nan`/`inf` in floating
point), while the expected sum-squared error is strictly positive, so the claimed
guarded quotient is strictly positive: the two quotients differ. -/
theorem C4_reconstruction_loss_division_unguarded :
    xEnergy 1 1 zeroR = 0
    ∧ reconstructionLoss 1 1 2 1 centersC4 0 zeroR zeroIdx = 0
    ∧ 0 < reconstructionLossGuarded 1 1 2 1 centersC4 0 zeroR zeroIdx
    ∧ reconstructionLoss 1 1 2 1 centersC4 0 zeroR zeroIdx
        ≠ reconstructionLossGuarded 1 1 2 1 centersC4 0 zeroR zeroIdx := by
  have hE : xEnergy 1 1 zeroR = 0 := by
    simp [xEnergy, zeroR]
  have hpos : 0 < expectedSumsq 1 1 2 1 centersC4 0 zeroR zeroIdx := by
    have h1 : ∀ b c k, 0 < codebookProbs 1 2 1 centersC4 0 zeroR zeroIdx b c k :=
      fun b c k => codebookProbs_pos 1 2 1 centersC4 0 zeroR zeroIdx b c k (by norm_num)
    have h2 : modifiedSumsqErrsR 1 1 centersC4 zeroR zeroIdx 0 0 0 = 1 := by
      simp [modifiedSumsqErrsR, modifiedErrsR, xErrR, curCentersR, centersC4, zeroR, zeroIdx,
        Finset.sum_range_succ, Finset.sum_range_zero]
    have h3 : modifiedSumsqErrsR 1 1 centersC4 zeroR zeroIdx 0 0 1 = 4 := by
      simp [modifiedSumsqErrsR, modifiedErrsR, xErrR, curCentersR, centersC4, zeroR, zeroIdx,
        Finset.sum_range_succ, Finset.sum_range_zero]
      norm_num
    have h4 : 0 < expectedSumsqTerm1 1 1 2 1 centersC4 0 zeroR zeroIdx := by
      unfold expectedSumsqTerm1
      rw [Finset.sum_range_succ, Finset.sum_range_zero, Finset.sum_range_succ,
        Finset.sum_range_zero, Finset.sum_range_succ, Finset.sum_range_succ,
        Finset.sum_range_zero, h2, h3]
      have := h1 0 0 0
      have := h1 0 0 1
      nlinarith
    unfold expectedSumsq
    positivity
  refine ⟨hE, ?_, ?_, ?_⟩
  · unfold reconstructionLoss
    rw [hE, div_zero]
  · unfold reconstructionLossGuarded
    rw [hE]
    have : (0 : ℝ) + 1e-20 = 1e-20 := by norm_num
    rw [this]
    have heps : (0 : ℝ) < 1e-20 := by norm_num
    exact div_pos hpos heps
  · unfold reconstructionLoss reconstructionLossGuarded
    rw [hE]
    have h0 : (0 : ℝ) + 1e-20 = 1e-20 := by norm_num
    rw [div_zero, h0]
    have heps : (0 : ℝ) < 1e-20 := by norm_num
    exact ne_of_lt (div_pos hpos heps)

/-- C4 (amended).  Only the (unreachable) division in `compute_ref_loss` adds `1e-20`;
the division producing `reconstruction_loss` in `refine_indexes_stochastic` divides by
the raw energy `(x**2).sum()`: away from zero energy it is a genuine quotient with that
exact denominator, at zero energy it divides by zero, while the claim's guarded form
always has the nonzero denominator `energy + 1e-20`. -/
theorem C4_epsilon_missing_from_reconstruction_loss (B C K D : ℕ)
    (centers : ℕ → ℕ → ℕ → ℝ) (s : ℝ) (x : ℕ → ℕ → ℝ) (indexes : ℕ → ℕ → ℕ) :
    (xEnergy B D x = 0 → reconstructionLoss B C K D centers s x indexes = 0)
    ∧ (xEnergy B D x ≠ 0 →
        reconstructionLoss B C K D centers s x indexes * xEnergy B D x
          = expectedSumsq B C K D centers s x indexes)
    ∧ reconstructionLossGuarded B C K D centers s x indexes * (xEnergy B D x + 1e-20)
        = expectedSumsq B C K D centers s x indexes := by
  have hnn : 0 ≤ xEnergy B D x := by
    unfold xEnergy
    positivity
  refine ⟨?_, ?_, ?_⟩
  · intro h
    unfold reconstructionLoss
    rw [h, div_zero]
  · intro h
    unfold reconstructionLoss
    exact div_mul_cancel₀ _ h
  · unfold reconstructionLossGuarded
    have heps : (0 : ℝ) < 1e-20 := by norm_num
    have : xEnergy B D x + 1e-20 ≠ 0 := by linarith
    exact div_mul_cancel₀ _ this

/-- Witness for `C4_epsilon_missing_from_reconstruction_loss` at the zero-energy batch,
discharging the zero-energy hypothesis of the first conjunct. -/
theorem C4_epsilon_missing_from_reconstruction_loss_witness :
    reconstructionLoss 1 1 2 1 centersC4 0 zeroR zeroIdx = 0
    ∧ reconstructionLossGuarded 1 1 2 1 centersC4 0 zeroR zeroIdx
        * (xEnergy 1 1 zeroR + 1e-20)
        = expectedSumsq 1 1 2 1 centersC4 0 zeroR zeroIdx :=
  ⟨(C4_epsilon_missing_from_reconstruction_loss 1 1 2 1 centersC4 0 zeroR zeroIdx).1
      (by simp [xEnergy, zeroR]),
    (C4_epsilon_missing_from_reconstruction_loss 1 1 2 1 centersC4 0 zeroR zeroIdx).2.2⟩

end MultiKmeans
